import Mathlib

/-!
Verification of the exam-verification backend (src/backend/server.js).

The spreadsheet-backed student store is shallowly embedded: a sheet is the
list of data rows of the configured range (A2:L, so list index i is sheet
row i + 2), a row is a list of cell strings, and each HTTP handler is a
pure function from its request payload and the sheet state(s) it observes
to a response value and the resulting sheet (or write action).

Modelling conventions:
- JavaScript strings are Lean `String`s; `jsTrim`, `jsToLower` model
  `String.prototype.trim` / `toLowerCase` over the character list (they
  agree with the JS functions on the ASCII data this service handles).
- JSON values that the code inspects by type (the `Paid`, `FeeAmount` and
  update-payload fields fed to `normalizeYesNo`) are modelled by `JSVal`.
  Express parses request bodies with JSON.parse, which never produces
  `undefined` inside an object, so an `Option` field with `some v` models
  "key present with value v".
- Clock and `Date` parsing are the only environment effects: handlers take
  the current epoch milliseconds `nowMs : Int`, the IST timestamp string
  `nowIST` that `getCurrentISTTimestamp()` would produce, and the oracle
  `dateParse : String → Option Int` for `new Date(string)`.
- HTTP statuses are encoded by response constructors: for POST /student,
  `missingFields`/`missingFee`/`invalidMobile` are the 400 responses,
  `updatedR` is 200 with updated:true, `createdR` is 201 with created:true,
  and `serverError` is the 500 produced by a thrown error; for
  POST /student/update, `badRequest`/`invalidMobile` are 400, `notFound`
  is 404, `conflict` is 409 with its remainingHours payload, `ok` is 200.
-/

/-- Model of a JSON/JavaScript value as far as server.js inspects one:
strings, booleans, numbers, null and undefined. -/
inductive JSVal where
  | vStr (s : String)
  | vBool (b : Bool)
  | vNum (n : Int)
  | vNull
  | vUndef
  deriving DecidableEq

/-- JavaScript `String.prototype.trim`: drop whitespace from both ends. -/
def jsTrim (s : String) : String :=
  String.mk (((s.data.dropWhile Char.isWhitespace).reverse.dropWhile Char.isWhitespace).reverse)

/-- JavaScript `String.prototype.toLowerCase` (ASCII fragment). -/
def jsToLower (s : String) : String :=
  String.mk (s.data.map Char.toLower)

/-- JavaScript `String(value)` coercion for the values `JSVal` models. -/
def jsToString : JSVal → String
  | .vStr s => s
  | .vBool true => "true"
  | .vBool false => "false"
  | .vNum n => toString n
  | .vNull => "null"
  | .vUndef => "undefined"

/-- server.js `normalizeYesNo` (lines 303-311): booleans map to Yes/No, a
string maps to Yes exactly when its trimmed lowercase form is "yes", and
every other value maps to No. -/
def normalizeYesNo : JSVal → String
  | .vBool b => if b then "Yes" else "No"
  | .vStr s => if jsToLower (jsTrim s) = "yes" then "Yes" else "No"
  | _ => "No"

/-- server.js `normalizeMobileNumber` (lines 399-402): remove every
non-digit character (the regex \D is the complement of [0-9]). -/
def normalizeMobileNumber (s : String) : String :=
  String.mk (s.data.filter Char.isDigit)

/-- A student record as mapped from one 12-column sheet row (server.js
`mapRowToStudent`). `columnJ`/`columnK` are the reserved passthrough
columns `_columnJ`/`_columnK`; `rowNumber` is the 1-indexed sheet row. -/
structure Student where
  Name : String
  MobileNo : String
  District : String
  State : String
  Paid : String
  FeeAmount : String
  Attempted : String
  RetakeAllowed : String
  LastApprovedAt : String
  columnJ : String
  columnK : String
  CreatedAt : String
  rowNumber : Nat
  deriving DecidableEq

/-- server.js `mapRowToStudent` (lines 279-301): each named column takes
`row[index] ?? ''`, columns J and K are kept as `_columnJ`/`_columnK`. -/
def mapRowToStudent (row : List String) (rowNumber : Nat) : Student :=
  { Name := row.getD 0 "", MobileNo := row.getD 1 "", District := row.getD 2 ""
    State := row.getD 3 "", Paid := row.getD 4 "", FeeAmount := row.getD 5 ""
    Attempted := row.getD 6 "", RetakeAllowed := row.getD 7 ""
    LastApprovedAt := row.getD 8 "", columnJ := row.getD 9 "", columnK := row.getD 10 ""
    CreatedAt := row.getD 11 "", rowNumber := rowNumber }

/-- server.js `buildRowFromStudent` (lines 321-350): the 12 positional
cells; every named field goes through `String(value).trim()` (all fields
are strings here, so that is `jsTrim`), columns J and K pass through
verbatim. The function's own length-12 check is satisfied by construction
exactly as in the source (the list literal has 12 entries). -/
def buildRowFromStudent (st : Student) : List String :=
  [jsTrim st.Name, jsTrim st.MobileNo, jsTrim st.District, jsTrim st.State,
   jsTrim st.Paid, jsTrim st.FeeAmount, jsTrim st.Attempted, jsTrim st.RetakeAllowed,
   jsTrim st.LastApprovedAt, st.columnJ, st.columnK, jsTrim st.CreatedAt]

/-- The row predicate of the `findIndex` callback inside server.js
`findStudentByMobile` (lines 450-468): skip rows shorter than 2 cells or
with an empty normalized mobile, otherwise compare normalized mobiles. -/
def rowMatches (searchMobile : String) (row : List String) : Bool :=
  if row.length < 2 then false
  else if normalizeMobileNumber (row.getD 1 "") = "" then false
  else decide (normalizeMobileNumber (row.getD 1 "") = searchMobile)

/-- JavaScript `Array.prototype.findIndex`, returning an `Option Nat`. -/
def jsFindIndex {α : Type} (p : α → Bool) : List α → Option Nat
  | [] => none
  | a :: l => if p a then some 0 else (jsFindIndex p l).map (· + 1)

/-- server.js `findStudentByMobile` (lines 420-494) against a given sheet
state. The configured range is A2:L (no header inside the range, so
`startRow` is 0 and `dataRows` is the whole range) and the matched row is
reported at sheet row `index + 2` (line 487). -/
def findStudentByMobile (mobileNo : String) (sheet : List (List String)) : Option Student :=
  match jsFindIndex (rowMatches (normalizeMobileNumber mobileNo)) sheet with
  | none => none
  | some idx => some (mapRowToStudent (sheet.getD idx []) (idx + 2))

/-- The partial-update payload of POST /student/update. A field is `some v`
when the JSON body's `updates` object carries that key. Keys other than
the 12 sheet columns would be merged into the object but are never
serialized into the row, so they are omitted from the model. -/
structure Updates where
  Name : Option String := none
  District : Option String := none
  State : Option String := none
  Paid : Option JSVal := none
  FeeAmount : Option String := none
  Attempted : Option JSVal := none
  RetakeAllowed : Option JSVal := none
  LastApprovedAt : Option String := none
  CreatedAt : Option String := none
  deriving DecidableEq

/-- server.js lines 994-995: the update asks for a retake when the payload
has a RetakeAllowed key whose normalized value is "Yes". -/
def isRetakeRequest (u : Updates) : Bool :=
  match u.RetakeAllowed with
  | some v => decide (normalizeYesNo v = "Yes")
  | none => false

/-- server.js lines 996-999: the update newly marks an attempt when the
payload sets Attempted to Yes and the stored record's Attempted does not
already normalize to "Yes". -/
def isAttemptApproval (u : Updates) (st : Student) : Bool :=
  match u.Attempted with
  | some v => decide (normalizeYesNo v = "Yes") && !(decide (normalizeYesNo (.vStr st.Attempted) = "Yes"))
  | none => false

/-- server.js line 233: `TWELVE_HOURS_MS = 12 * 60 * 60 * 1000`. -/
def TWELVE_HOURS_MS : Int := 12 * 60 * 60 * 1000

/-- Ceiling of the integer division a / b for positive b, as computed by
`Math.ceil(a / b)` on the exactly-representable values used here. -/
def ceilDiv (a b : Int) : Int := -((-a) / b)

/-- server.js `parseIsoDate` (lines 365-371): null on a falsy/non-string
value, otherwise `new Date(value)` (the `dateParse` oracle, which returns
none when the Date is NaN). -/
def parseIsoDate (dateParse : String → Option Int) (value : String) : Option Int :=
  if value = "" then none else dateParse value

/-- server.js lines 1001-1015: on a retake request, if the stored
LastApprovedAt parses and less than twelve hours have elapsed, produce
the 409 payload's remainingHours (ceiling of the remaining wait). -/
def cooldownCheck (dateParse : String → Option Int) (nowMs : Int) (u : Updates) (st : Student) :
    Option Int :=
  if isRetakeRequest u then
    match parseIsoDate dateParse st.LastApprovedAt with
    | some t =>
      if nowMs - t < TWELVE_HOURS_MS then
        some (ceilDiv (TWELVE_HOURS_MS - (nowMs - t)) 3600000)
      else none
    | none => none
  else none

/-- server.js lines 1017-1059: the updated record written back by
POST /student/update. CreatedAt is stripped from the payload and restored
from the stored record (lines 1019, 1054); MobileNo is forced to the
normalized number (line 1029); LastApprovedAt is refreshed to the current
IST time exactly when the update is a retake grant or a fresh attempt
approval (lines 1046-1050); the reserved columns pass through. -/
def mergedStudent (nowIST : String) (nm : String) (u : Updates) (st : Student) : Student :=
  { Name := u.Name.getD st.Name
    MobileNo := nm
    District := u.District.getD st.District
    State := u.State.getD st.State
    Paid := (u.Paid.map normalizeYesNo).getD st.Paid
    FeeAmount := u.FeeAmount.getD st.FeeAmount
    Attempted := (u.Attempted.map normalizeYesNo).getD st.Attempted
    RetakeAllowed := (u.RetakeAllowed.map normalizeYesNo).getD st.RetakeAllowed
    LastApprovedAt :=
      if isRetakeRequest u || isAttemptApproval u st then nowIST
      else u.LastApprovedAt.getD st.LastApprovedAt
    columnJ := st.columnJ
    columnK := st.columnK
    CreatedAt := st.CreatedAt
    rowNumber := st.rowNumber }

/-- Responses of POST /student/update: badRequest/invalidMobile are the
two 400s, notFound is 404, conflict is the 409 carrying remainingHours,
ok is the 200 carrying the updated student. -/
inductive UpdateResp where
  | badRequest
  | invalidMobile
  | notFound
  | conflict (remainingHours : Int)
  | ok (student : Student)
  deriving DecidableEq

/-- Writing one row in place at list index `idx` (sheet row `idx + 2`),
as `sheets.spreadsheets.values.update` on range A{row}:L{row} does. -/
def setRow (s : List (List String)) (idx : Nat) (r : List String) : List (List String) :=
  s.set idx r

/-- server.js POST /student/update handler (lines 949-1092), from the
request body and sheet state to the response and resulting sheet. -/
def updateStudent (dateParse : String → Option Int) (nowMs : Int) (nowIST : String)
    (mobileNo : String) (u : Updates) (s : List (List String)) :
    UpdateResp × List (List String) :=
  if mobileNo = "" then (.badRequest, s)
  else if normalizeMobileNumber mobileNo = "" then (.invalidMobile, s)
  else
    match findStudentByMobile (normalizeMobileNumber mobileNo) s with
    | none => (.notFound, s)
    | some st =>
      match cooldownCheck dateParse nowMs u st with
      | some rh => (.conflict rh, s)
      | none =>
        (.ok (mergedStudent nowIST (normalizeMobileNumber mobileNo) u st),
         setRow s (st.rowNumber - 2)
           (buildRowFromStudent (mergedStudent nowIST (normalizeMobileNumber mobileNo) u st)))

/-- The POST /student request body (line 655). The four string fields are
JSON strings; Paid and FeeAmount stay `JSVal` because the handler inspects
their type (`typeof Paid`, the undefined/null/empty checks on FeeAmount)
and feeds Paid to `normalizeYesNo`. -/
structure CreateReq where
  Name : String
  MobileNo : String
  District : String
  State : String
  Paid : JSVal
  FeeAmount : JSVal
  deriving DecidableEq

/-- server.js line 665: FeeAmount counts as missing when it is undefined,
null or the empty string. -/
def feeMissing (v : JSVal) : Prop := v = .vUndef ∨ v = .vNull ∨ v = .vStr ""

instance : DecidablePred feeMissing := fun v => by
  unfold feeMissing; infer_instance

/-- server.js lines 692-710 (and the identical blocks at 750-768 and
821-838): the in-place update written when the mobile number already has a
row. CreatedAt, LastApprovedAt, Attempted, RetakeAllowed and the reserved
columns are preserved from the existing record; Name/District/State are
trimmed; Paid is normalized; FeeAmount is taken from the request when
provided, else preserved. -/
def upsertExisting (req : CreateReq) (nm : String) (ex : Student) : Student :=
  { Name := jsTrim req.Name
    MobileNo := nm
    District := jsTrim req.District
    State := jsTrim req.State
    Paid := normalizeYesNo req.Paid
    FeeAmount := if feeMissing req.FeeAmount then ex.FeeAmount else jsTrim (jsToString req.FeeAmount)
    Attempted := ex.Attempted
    RetakeAllowed := ex.RetakeAllowed
    LastApprovedAt := ex.LastApprovedAt
    columnJ := ex.columnJ
    columnK := ex.columnK
    CreatedAt := ex.CreatedAt
    rowNumber := ex.rowNumber }

/-- server.js lines 802-815: the freshly appended record. Attempted is
forced to "Yes", RetakeAllowed to "No", and CreatedAt / LastApprovedAt are
both the current IST timestamp. The JS object carries no rowNumber key;
the placeholder 0 here is never read by `buildRowFromStudent`. -/
def newStudentOf (req : CreateReq) (nm nowIST : String) : Student :=
  { Name := jsTrim req.Name, MobileNo := nm, District := jsTrim req.District
    State := jsTrim req.State, Paid := normalizeYesNo req.Paid
    FeeAmount := jsTrim (jsToString req.FeeAmount)
    Attempted := "Yes", RetakeAllowed := "No", LastApprovedAt := nowIST
    columnJ := "", columnK := "", CreatedAt := nowIST, rowNumber := 0 }

/-- Responses of POST /student: the three 400s, 200 updated:true,
201 created:true, and the 500 produced when the handler throws (the
absolute-final duplicate check at line 874 throws an Error). -/
inductive CreateResp where
  | missingFields
  | missingFee
  | invalidMobile
  | updatedR (student : Student)
  | createdR (student : Student)
  | serverError
  deriving DecidableEq

/-- The single write round-trip a POST /student request performs (or no
write at all). -/
inductive WriteAction where
  | noWrite
  | updateRowAt (rowNumber : Nat) (vals : List String)
  | appendRow (vals : List String)
  deriving DecidableEq

/-- Response and write of every duplicate branch of POST /student: update
the existing row in place and answer 200 updated:true. -/
def upsertResult (req : CreateReq) (nm : String) (ex : Student) : CreateResp × WriteAction :=
  (.updatedR (upsertExisting req nm ex),
   .updateRowAt ex.rowNumber (buildRowFromStudent (upsertExisting req nm ex)))

/-- server.js POST /student handler (lines 654-893). The four sheet states
`s1 s2 s3 s4` are what the four successive `findStudentByMobile` calls
observe (line 683, the final check at 743, the pre-append check at 818 and
the absolute final check at 870); under sequential access they coincide.
If the absolute final check finds a record the handler throws (line 874),
surfaced as the 500 `serverError`. -/
def createStudentR (nowIST : String) (req : CreateReq) (s1 s2 s3 s4 : List (List String)) :
    CreateResp × WriteAction :=
  if req.Name = "" ∨ req.MobileNo = "" ∨ req.District = "" ∨ req.State = "" ∨ req.Paid = .vUndef then
    (.missingFields, .noWrite)
  else if feeMissing req.FeeAmount then (.missingFee, .noWrite)
  else if normalizeMobileNumber req.MobileNo = "" then (.invalidMobile, .noWrite)
  else
    match findStudentByMobile (normalizeMobileNumber req.MobileNo) s1 with
    | some ex => upsertResult req (normalizeMobileNumber req.MobileNo) ex
    | none =>
      match findStudentByMobile (normalizeMobileNumber req.MobileNo) s2 with
      | some ex => upsertResult req (normalizeMobileNumber req.MobileNo) ex
      | none =>
        match findStudentByMobile (normalizeMobileNumber req.MobileNo) s3 with
        | some ex => upsertResult req (normalizeMobileNumber req.MobileNo) ex
        | none =>
          match findStudentByMobile (normalizeMobileNumber req.MobileNo) s4 with
          | some _ => (.serverError, .noWrite)
          | none =>
            (.createdR (newStudentOf req (normalizeMobileNumber req.MobileNo) nowIST),
             .appendRow (buildRowFromStudent (newStudentOf req (normalizeMobileNumber req.MobileNo) nowIST)))

/-- Apply a write action to a sheet state: in-place update of sheet row
`n` (list index n - 2) or append at the end. -/
def applyAction (s : List (List String)) : WriteAction → List (List String)
  | .noWrite => s
  | .updateRowAt n vals => setRow s (n - 2) vals
  | .appendRow vals => s ++ [vals]

/-- POST /student under sequential access: every lookup and the final
write see the same sheet state. -/
def createStudent (nowIST : String) (req : CreateReq) (s : List (List String)) :
    CreateResp × List (List String) :=
  ((createStudentR nowIST req s s s s).1, applyAction s (createStudentR nowIST req s s s s).2)

/-- Responses of GET /student: 400 when the query parameter is missing or
trims to empty, 404 when no row matches, 200 with the student. -/
inductive GetResp where
  | badRequest
  | notFound
  | found (student : Student)
  deriving DecidableEq

/-- server.js GET /student handler (lines 496-514): reject only a
missing/whitespace mobileNo, then look the trimmed value up. -/
def getStudent (mobileNo : String) (s : List (List String)) : GetResp :=
  if jsTrim mobileNo = "" then .badRequest
  else
    match findStudentByMobile (jsTrim mobileNo) s with
    | none => .notFound
    | some st => .found st

/-- The required-field validation of POST /student all passing, plus a
mobile number that survives normalization (line 675). -/
def validCreate (req : CreateReq) : Prop :=
  req.Name ≠ "" ∧ req.MobileNo ≠ "" ∧ req.District ≠ "" ∧ req.State ≠ "" ∧
  req.Paid ≠ .vUndef ∧ ¬ feeMissing req.FeeAmount ∧ normalizeMobileNumber req.MobileNo ≠ ""

instance : DecidablePred validCreate := fun req => by
  unfold validCreate; infer_instance

/-- A concrete sheet row used by the witness scenarios: a student created
earlier with mobile 9876543210, LastApprovedAt "T0" and CreatedAt "C0". -/
def demoRow : List String :=
  ["A", "9876543210", "X", "Y", "Yes", "500", "Yes", "No", "T0", "", "", "C0"]

/-- A one-row sheet state for the witness scenarios. -/
def demoSheet : List (List String) := [demoRow]

/-- The record `findStudentByMobile` maps `demoRow` to (sheet row 2). -/
def demoStudent : Student := mapRowToStudent demoRow 2

/-- A demo sheet whose stored student has Attempted "No", for the
LastApprovedAt-refresh witnesses. -/
def demoSheetNo : List (List String) :=
  [["A", "9876543210", "X", "Y", "Yes", "500", "No", "No", "T0", "", "", "C0"]]

/-- A well-formed POST /student payload whose mobile number needs
normalization. -/
def demoReq : CreateReq :=
  { Name := "B", MobileNo := "98765 43210", District := "D2", State := "S2",
    Paid := .vStr "yes", FeeAmount := .vStr "600" }

/-- The example creation payload from the specification (Name "A",
MobileNo "98765 43210", District "X", State "Y", Paid "Yes",
FeeAmount "500"). -/
def exampleReq : CreateReq :=
  { Name := "A", MobileNo := "98765 43210", District := "X", State := "Y",
    Paid := .vStr "Yes", FeeAmount := .vStr "500" }

/-- An update payload that tries to smuggle a CreatedAt value in. -/
def c2updates : Updates := { CreatedAt := some "EVIL", Paid := some (.vBool true) }

/-- An update payload requesting a retake. -/
def c3updates : Updates := { RetakeAllowed := some (.vBool true) }

/-- An update payload re-setting Attempted. -/
def c5updates : Updates := { Attempted := some (.vBool true) }

/-! ### Helper lemmas about the JavaScript array/string primitives -/

theorem jsFindIndex_eq_none {α : Type} (p : α → Bool) (l : List α)
    (h : ∀ a ∈ l, p a = false) : jsFindIndex p l = none := by
  induction l with
  | nil => rfl
  | cons a l ih =>
    have ha := h a (List.mem_cons_self a l)
    have hl : ∀ b ∈ l, p b = false := fun b hb => h b (List.mem_cons_of_mem a hb)
    simp [jsFindIndex, ha, ih hl]

theorem jsFindIndex_spec {α : Type} (p : α → Bool) (d : α) (l : List α) (i : Nat)
    (h : jsFindIndex p l = some i) :
    i < l.length ∧ p (l.getD i d) = true ∧ ∀ j, j < i → p (l.getD j d) = false := by
  induction l generalizing i with
  | nil => cases h
  | cons a l ih =>
    by_cases hp : p a
    · simp [jsFindIndex, hp] at h
      subst h
      exact ⟨Nat.succ_pos _, hp, fun j hj => absurd hj (Nat.not_lt_zero j)⟩
    · simp [jsFindIndex, hp] at h
      obtain ⟨i', hi', rfl⟩ := h
      obtain ⟨hlen, hget, hfirst⟩ := ih i' hi'
      refine ⟨Nat.succ_lt_succ hlen, by simpa using hget, ?_⟩
      intro j hj
      cases j with
      | zero => simpa using hp
      | succ k => simpa using hfirst k (Nat.lt_of_succ_lt_succ hj)

theorem jsFindIndex_set {α : Type} (p : α → Bool) (l : List α) (i : Nat) (a : α)
    (h : jsFindIndex p l = some i) (ha : p a = true) :
    jsFindIndex p (l.set i a) = some i := by
  induction l generalizing i with
  | nil => cases h
  | cons x xs ih =>
    by_cases hp : p x
    · simp [jsFindIndex, hp] at h
      subst h
      simp [jsFindIndex, ha]
    · simp [jsFindIndex, hp] at h
      obtain ⟨i', hi', rfl⟩ := h
      simp [jsFindIndex, hp, ih i' hi']

theorem jsFindIndex_append {α : Type} (p : α → Bool) (l1 l2 : List α)
    (h : jsFindIndex p l1 = none) :
    jsFindIndex p (l1 ++ l2) = (jsFindIndex p l2).map (· + l1.length) := by
  induction l1 with
  | nil => cases hj : jsFindIndex p l2 <;> simp [hj]
  | cons x xs ih =>
    by_cases hp : p x
    · simp [jsFindIndex, hp] at h
    · simp only [jsFindIndex, hp] at h
      have hxs : jsFindIndex p xs = none := by
        cases hx : jsFindIndex p xs <;> simp [hx] at h ⊢
      rw [List.cons_append]
      simp only [jsFindIndex, hp, if_false, ih hxs]
      cases hj : jsFindIndex p l2
      · simp [hj]
      · simp [hj]
        omega

theorem getD_set_self {α : Type} (l : List α) (i : Nat) (a d : α) (h : i < l.length) :
    (l.set i a).getD i d = a := by
  induction l generalizing i with
  | nil => simp at h
  | cons x xs ih =>
    cases i with
    | zero => rfl
    | succ n => simpa using ih n (by simpa using h)

theorem countP_set_eq {α : Type} (p : α → Bool) (d : α) (l : List α) (i : Nat) (a : α)
    (h : i < l.length) (hold : p (l.getD i d) = true) (hnew : p a = true) :
    (l.set i a).countP p = l.countP p := by
  induction l generalizing i with
  | nil => simp at h
  | cons x xs ih =>
    cases i with
    | zero =>
      have hx : p x = true := hold
      simp [List.countP_cons, hx, hnew]
    | succ n =>
      have := ih n (by simpa using h) (by simpa using hold)
      simp [List.countP_cons, this]

theorem isWhitespace_eq_false_of_isDigit (c : Char) (h : c.isDigit = true) :
    c.isWhitespace = false := by
  by_contra hw
  rw [Bool.not_eq_false] at hw
  simp only [Char.isWhitespace, Bool.or_eq_true, decide_eq_true_eq] at hw
  rcases hw with ((rfl | rfl) | rfl) | rfl <;> exact absurd h (by decide)

theorem dropWhile_eq_self_of_false {α : Type} (p : α → Bool) (l : List α)
    (h : ∀ a ∈ l, p a = false) : l.dropWhile p = l := by
  cases l with
  | nil => rfl
  | cons x xs => simp [List.dropWhile_cons, h x (List.mem_cons_self x xs)]

theorem jsTrim_eq_self {s : String} (h : ∀ c ∈ s.data, c.isWhitespace = false) :
    jsTrim s = s := by
  unfold jsTrim
  rw [dropWhile_eq_self_of_false _ _ h,
      dropWhile_eq_self_of_false _ _ (fun c hc => h c (List.mem_reverse.mp hc)),
      List.reverse_reverse]

theorem normalizeMobileNumber_data (s : String) :
    (normalizeMobileNumber s).data = s.data.filter Char.isDigit := rfl

theorem normalizeMobileNumber_idem (s : String) :
    normalizeMobileNumber (normalizeMobileNumber s) = normalizeMobileNumber s := by
  unfold normalizeMobileNumber
  congr 1
  simp [List.filter_filter]

theorem jsTrim_normalizeMobileNumber (s : String) :
    jsTrim (normalizeMobileNumber s) = normalizeMobileNumber s :=
  jsTrim_eq_self fun c hc =>
    isWhitespace_eq_false_of_isDigit c (List.of_mem_filter hc)

theorem rowMatches_empty (row : List String) : rowMatches "" row = false := by
  unfold rowMatches
  by_cases h1 : row.length < 2
  · simp [h1]
  · by_cases h2 : normalizeMobileNumber (row.getD 1 "") = "" <;> simp [h1, h2]

theorem findStudentByMobile_of_norm_empty (mobileNo : String) (s : List (List String))
    (h : normalizeMobileNumber mobileNo = "") : findStudentByMobile mobileNo s = none := by
  unfold findStudentByMobile
  rw [h, jsFindIndex_eq_none _ _ fun row _ => rowMatches_empty row]

theorem normalizeMobileNumber_jsTrim_of_empty (mob : String)
    (h : normalizeMobileNumber mob = "") : normalizeMobileNumber (jsTrim mob) = "" := by
  have hd : mob.data.filter Char.isDigit = [] := congrArg String.data h
  have hsub : List.Sublist (jsTrim mob).data mob.data := by
    have h1 : List.Sublist (mob.data.dropWhile Char.isWhitespace) mob.data :=
      List.dropWhile_sublist _
    have h2 : List.Sublist
        ((mob.data.dropWhile Char.isWhitespace).reverse.dropWhile Char.isWhitespace)
        (mob.data.dropWhile Char.isWhitespace).reverse :=
      List.dropWhile_sublist _
    have h3 := h2.reverse
    rw [List.reverse_reverse] at h3
    exact h3.trans h1
  have hfil := hsub.filter Char.isDigit
  rw [hd] at hfil
  have : (jsTrim mob).data.filter Char.isDigit = [] := List.sublist_nil.mp hfil
  unfold normalizeMobileNumber
  rw [this]

theorem getD_append_length {α : Type} (l : List α) (a d : α) :
    (l ++ [a]).getD l.length d = a := by
  induction l with
  | nil => rfl
  | cons x xs ih => simp [ih]

theorem normalizeYesNo_total (v : JSVal) :
    normalizeYesNo v = "Yes" ∨ normalizeYesNo v = "No" := by
  cases v with
  | vStr s =>
    by_cases h : jsToLower (jsTrim s) = "yes" <;> simp [normalizeYesNo, h]
  | vBool b => cases b <;> simp [normalizeYesNo]
  | vNum n => simp [normalizeYesNo]
  | vNull => simp [normalizeYesNo]
  | vUndef => simp [normalizeYesNo]

theorem findStudentByMobile_some_inv {mob : String} {s : List (List String)} {st : Student}
    (h : findStudentByMobile mob s = some st) :
    ∃ idx, jsFindIndex (rowMatches (normalizeMobileNumber mob)) s = some idx ∧
      st = mapRowToStudent (s.getD idx []) (idx + 2) ∧ idx < s.length ∧
      st.rowNumber = idx + 2 := by
  unfold findStudentByMobile at h
  cases hj : jsFindIndex (rowMatches (normalizeMobileNumber mob)) s with
  | none => rw [hj] at h; cases h
  | some idx =>
    rw [hj] at h
    have hst := (Option.some.inj h).symm
    exact ⟨idx, rfl, hst, (jsFindIndex_spec _ [] _ _ hj).1, by rw [hst]; rfl⟩

theorem findStudentByMobile_none_inv {mob : String} {s : List (List String)}
    (h : findStudentByMobile mob s = none) :
    jsFindIndex (rowMatches (normalizeMobileNumber mob)) s = none := by
  unfold findStudentByMobile at h
  cases hj : jsFindIndex (rowMatches (normalizeMobileNumber mob)) s with
  | none => rfl
  | some idx => rw [hj] at h; cases h

theorem updateStudent_ok_inv {dateParse : String → Option Int} {nowMs : Int}
    {nowIST mob : String} {u : Updates} {s s2 : List (List String)} {st2 : Student}
    (h : updateStudent dateParse nowMs nowIST mob u s = (.ok st2, s2)) :
    ∃ st, findStudentByMobile (normalizeMobileNumber mob) s = some st ∧
      st2 = mergedStudent nowIST (normalizeMobileNumber mob) u st ∧
      s2 = setRow s (st.rowNumber - 2) (buildRowFromStudent st2) ∧
      cooldownCheck dateParse nowMs u st = none := by
  unfold updateStudent at h
  split at h
  · simp at h
  · split at h
    · simp at h
    · split at h
      · simp at h
      · rename_i st hfind
        split at h
        · simp at h
        · rename_i hcool
          injection h with h1 h2
          injection h1 with h1
          exact ⟨st, hfind, h1.symm, by rw [← h1]; exact h2.symm, hcool⟩

theorem updateStudent_of_found (dateParse : String → Option Int) (nowMs : Int)
    (nowIST mob : String) (u : Updates) (s : List (List String)) (st : Student)
    (hmob : mob ≠ "")
    (hfound : findStudentByMobile (normalizeMobileNumber mob) s = some st) :
    updateStudent dateParse nowMs nowIST mob u s =
      match cooldownCheck dateParse nowMs u st with
      | some rh => (.conflict rh, s)
      | none =>
        (.ok (mergedStudent nowIST (normalizeMobileNumber mob) u st),
         setRow s (st.rowNumber - 2)
           (buildRowFromStudent (mergedStudent nowIST (normalizeMobileNumber mob) u st))) := by
  have hnm : normalizeMobileNumber mob ≠ "" := by
    intro he
    rw [he, findStudentByMobile_of_norm_empty "" s (by decide)] at hfound
    cases hfound
  unfold updateStudent
  rw [if_neg hmob, if_neg hnm, hfound]

theorem createStudentR_createdR_inv {nowIST : String} {req : CreateReq}
    {s1 s2 s3 s4 : List (List String)} {ns : Student} {a : WriteAction}
    (h : createStudentR nowIST req s1 s2 s3 s4 = (.createdR ns, a)) :
    ns = newStudentOf req (normalizeMobileNumber req.MobileNo) nowIST ∧
    a = .appendRow (buildRowFromStudent ns) := by
  unfold createStudentR upsertResult at h
  split at h
  · simp at h
  · split at h
    · simp at h
    · split at h
      · simp at h
      · split at h
        · simp at h
        · split at h
          · simp at h
          · split at h
            · simp at h
            · split at h
              · simp at h
              · simp only [Prod.mk.injEq, CreateResp.createdR.injEq] at h
                exact ⟨h.1.symm, by rw [← h.1]; exact h.2.symm⟩

theorem createStudentR_updatedR_inv {nowIST : String} {req : CreateReq}
    {s1 s2 s3 s4 : List (List String)} {us : Student} {a : WriteAction}
    (h : createStudentR nowIST req s1 s2 s3 s4 = (.updatedR us, a)) :
    ∃ ex, us = upsertExisting req (normalizeMobileNumber req.MobileNo) ex ∧
      (findStudentByMobile (normalizeMobileNumber req.MobileNo) s1 = some ex ∨
       findStudentByMobile (normalizeMobileNumber req.MobileNo) s2 = some ex ∨
       findStudentByMobile (normalizeMobileNumber req.MobileNo) s3 = some ex) := by
  unfold createStudentR upsertResult at h
  split at h
  · simp at h
  · split at h
    · simp at h
    · split at h
      · simp at h
      · split at h
        · rename_i ex hfind
          simp only [Prod.mk.injEq, CreateResp.updatedR.injEq] at h
          exact ⟨ex, h.1.symm, Or.inl hfind⟩
        · split at h
          · rename_i ex hfind
            simp only [Prod.mk.injEq, CreateResp.updatedR.injEq] at h
            exact ⟨ex, h.1.symm, Or.inr (Or.inl hfind)⟩
          · split at h
            · rename_i ex hfind
              simp only [Prod.mk.injEq, CreateResp.updatedR.injEq] at h
              exact ⟨ex, h.1.symm, Or.inr (Or.inr hfind)⟩
            · split at h
              · simp at h
              · simp at h

theorem createStudent_createdR_inv {nowIST : String} {req : CreateReq}
    {s s2 : List (List String)} {ns : Student}
    (h : createStudent nowIST req s = (.createdR ns, s2)) :
    ns = newStudentOf req (normalizeMobileNumber req.MobileNo) nowIST := by
  unfold createStudent at h
  rcases hR : createStudentR nowIST req s s s s with ⟨r, a⟩
  rw [hR] at h
  injection h with h1 h2
  subst h1
  exact (createStudentR_createdR_inv hR).1

theorem createStudent_updatedR_inv {nowIST : String} {req : CreateReq}
    {s s2 : List (List String)} {us : Student}
    (h : createStudent nowIST req s = (.updatedR us, s2)) :
    ∃ ex, findStudentByMobile (normalizeMobileNumber req.MobileNo) s = some ex ∧
      us = upsertExisting req (normalizeMobileNumber req.MobileNo) ex := by
  unfold createStudent at h
  rcases hR : createStudentR nowIST req s s s s with ⟨r, a⟩
  rw [hR] at h
  injection h with h1 h2
  subst h1
  obtain ⟨ex, hus, hdisj⟩ := createStudentR_updatedR_inv hR
  rcases hdisj with hf | hf | hf <;> exact ⟨ex, hf, hus⟩

theorem rowMatches_buildRow (search : String) (st : Student)
    (h : normalizeMobileNumber (jsTrim st.MobileNo) = search) (hne : search ≠ "") :
    rowMatches search (buildRowFromStudent st) = true := by
  unfold rowMatches
  have hlen : ¬ (buildRowFromStudent st).length < 2 := by
    simp [buildRowFromStudent]
  have hget : (buildRowFromStudent st).getD 1 "" = jsTrim st.MobileNo := rfl
  rw [if_neg hlen, hget, h, if_neg hne]
  simp

/-! ### Claim theorems -/

/-- Claim C2: for every POST /student/update call on an existing record,
the CreatedAt of the resulting stored record equals the pre-update
record's CreatedAt regardless of the update payload — a CreatedAt key in
the updates object is stripped and the stored record's value (empty string
when it was absent, since `mapRowToStudent` fills missing cells with "")
is written back. The first conjunct is the 200 response's record; the
second is the cell actually written back to column L (the row serializer
trims every cell, and the system-written timestamps are trim-invariant). -/
theorem c2_update_preserves_createdAt
    (dateParse : String → Option Int) (nowMs : Int) (nowIST mob : String) (u : Updates)
    (s s2 : List (List String)) (st st2 : Student)
    (hfound : findStudentByMobile (normalizeMobileNumber mob) s = some st)
    (hok : updateStudent dateParse nowMs nowIST mob u s = (.ok st2, s2)) :
    st2.CreatedAt = st.CreatedAt ∧
    (jsTrim st.CreatedAt = st.CreatedAt →
      (s2.getD (st.rowNumber - 2) []).getD 11 "" = st.CreatedAt) := by
  obtain ⟨st0, hfind0, hst2, hs2, _⟩ := updateStudent_ok_inv hok
  rw [hfound] at hfind0
  obtain rfl := Option.some.inj hfind0
  subst hst2
  subst hs2
  refine ⟨rfl, fun htrim => ?_⟩
  obtain ⟨idx, hj, hstmap, hlen, hrow⟩ := findStudentByMobile_some_inv hfound
  have hidx : st.rowNumber - 2 = idx := by omega
  rw [hidx]
  unfold setRow
  rw [getD_set_self _ _ _ _ hlen]
  exact htrim

/-- Witness for C2: updating the demo record with a payload that sets
CreatedAt to "EVIL" still yields a record whose CreatedAt is "C0". -/
theorem c2_update_preserves_createdAt_witness :
    (mergedStudent "T1" (normalizeMobileNumber "9876543210") c2updates demoStudent).CreatedAt
      = "C0" := by
  have h := c2_update_preserves_createdAt (fun _ => none) 0 "T1" "9876543210" c2updates
    demoSheet
    (setRow demoSheet 0
      (buildRowFromStudent (mergedStudent "T1" (normalizeMobileNumber "9876543210") c2updates demoStudent)))
    demoStudent
    (mergedStudent "T1" (normalizeMobileNumber "9876543210") c2updates demoStudent)
    (by decide) (by decide)
  exact h.1.trans (by decide)

/-- Claim C3: a POST /student/update that sets RetakeAllowed to Yes on a
record whose LastApprovedAt parses to a time strictly less than 12 hours
in the past is rejected with the 409 conflict response carrying
remainingHours equal to the remaining wait rounded up, with
1 ≤ remainingHours ≤ 12, and the sheet is returned unchanged — the 409
branch returns before the write call, so no field of the stored record is
mutated. -/
theorem c3_retake_cooldown_conflict
    (dateParse : String → Option Int) (nowMs : Int) (nowIST mob : String) (u : Updates)
    (s : List (List String)) (st : Student) (t : Int)
    (hmob : mob ≠ "")
    (hfound : findStudentByMobile (normalizeMobileNumber mob) s = some st)
    (hret : isRetakeRequest u = true)
    (hparse : parseIsoDate dateParse st.LastApprovedAt = some t)
    (hpast : 0 ≤ nowMs - t)
    (hlt : nowMs - t < TWELVE_HOURS_MS) :
    updateStudent dateParse nowMs nowIST mob u s =
      (.conflict (ceilDiv (TWELVE_HOURS_MS - (nowMs - t)) 3600000), s) ∧
    1 ≤ ceilDiv (TWELVE_HOURS_MS - (nowMs - t)) 3600000 ∧
    ceilDiv (TWELVE_HOURS_MS - (nowMs - t)) 3600000 ≤ 12 := by
  have hcool : cooldownCheck dateParse nowMs u st =
      some (ceilDiv (TWELVE_HOURS_MS - (nowMs - t)) 3600000) := by
    unfold cooldownCheck
    rw [hret, if_pos rfl, hparse]
    exact if_pos hlt
  refine ⟨?_, ?_, ?_⟩
  · rw [updateStudent_of_found dateParse nowMs nowIST mob u s st hmob hfound, hcool]
  · simp only [ceilDiv, TWELVE_HOURS_MS] at hlt ⊢
    omega
  · simp only [ceilDiv, TWELVE_HOURS_MS] at hlt hpast ⊢
    omega

/-- Witness for C3: a retake requested one hour after the last approval is
rejected with remainingHours 11 and the demo sheet untouched. -/
theorem c3_retake_cooldown_conflict_witness :
    updateStudent (fun _ => some 0) 3600000 "T1" "9876543210" c3updates demoSheet =
      (.conflict (ceilDiv (TWELVE_HOURS_MS - (3600000 - 0)) 3600000), demoSheet) ∧
    1 ≤ ceilDiv (TWELVE_HOURS_MS - (3600000 - 0)) 3600000 ∧
    ceilDiv (TWELVE_HOURS_MS - (3600000 - 0)) 3600000 ≤ 12 :=
  c3_retake_cooldown_conflict (fun _ => some 0) 3600000 "T1" "9876543210" c3updates
    demoSheet demoStudent 0 (by decide) (by decide) (by decide) (by decide)
    (by decide) (by decide)

/-- Claim C4: a POST /student/update that sets RetakeAllowed to Yes on a
record whose LastApprovedAt does not parse (absent) or is at least 12
hours in the past is accepted with 200: the resulting record has
RetakeAllowed "Yes" and LastApprovedAt refreshed to the current IST time,
and the written row stores "Yes" in the RetakeAllowed column. -/
theorem c4_retake_accepted
    (dateParse : String → Option Int) (nowMs : Int) (nowIST mob : String) (u : Updates)
    (s : List (List String)) (st : Student)
    (hmob : mob ≠ "")
    (hfound : findStudentByMobile (normalizeMobileNumber mob) s = some st)
    (hret : isRetakeRequest u = true)
    (hcool : ∀ t, parseIsoDate dateParse st.LastApprovedAt = some t →
      TWELVE_HOURS_MS ≤ nowMs - t) :
    updateStudent dateParse nowMs nowIST mob u s =
      (.ok (mergedStudent nowIST (normalizeMobileNumber mob) u st),
       setRow s (st.rowNumber - 2)
         (buildRowFromStudent (mergedStudent nowIST (normalizeMobileNumber mob) u st))) ∧
    (mergedStudent nowIST (normalizeMobileNumber mob) u st).RetakeAllowed = "Yes" ∧
    (mergedStudent nowIST (normalizeMobileNumber mob) u st).LastApprovedAt = nowIST ∧
    (buildRowFromStudent (mergedStudent nowIST (normalizeMobileNumber mob) u st)).getD 7 ""
      = "Yes" := by
  have hc : cooldownCheck dateParse nowMs u st = none := by
    unfold cooldownCheck
    rw [hret, if_pos rfl]
    cases hp : parseIsoDate dateParse st.LastApprovedAt with
    | none => rfl
    | some t => exact if_neg (not_lt.mpr (hcool t hp))
  have hRet : (mergedStudent nowIST (normalizeMobileNumber mob) u st).RetakeAllowed = "Yes" := by
    show (u.RetakeAllowed.map normalizeYesNo).getD st.RetakeAllowed = "Yes"
    unfold isRetakeRequest at hret
    cases hu : u.RetakeAllowed with
    | none => rw [hu] at hret; cases hret
    | some v =>
      rw [hu] at hret
      have hv := of_decide_eq_true hret
      simp [hu, hv]
  refine ⟨?_, hRet, ?_, ?_⟩
  · rw [updateStudent_of_found dateParse nowMs nowIST mob u s st hmob hfound, hc]
  · show (if isRetakeRequest u || isAttemptApproval u st then nowIST
      else u.LastApprovedAt.getD st.LastApprovedAt) = nowIST
    rw [hret]
    simp
  · show jsTrim (mergedStudent nowIST (normalizeMobileNumber mob) u st).RetakeAllowed = "Yes"
    rw [hRet]
    decide

/-- Witness for C4: a retake requested exactly 12 hours after the last
approval is accepted and refreshes LastApprovedAt to "T2". -/
theorem c4_retake_accepted_witness :
    (mergedStudent "T2" (normalizeMobileNumber "9876543210") c3updates demoStudent).RetakeAllowed
      = "Yes" ∧
    (mergedStudent "T2" (normalizeMobileNumber "9876543210") c3updates demoStudent).LastApprovedAt
      = "T2" := by
  have h := c4_retake_accepted (fun _ => some 0) TWELVE_HOURS_MS "T2" "9876543210" c3updates
    demoSheet demoStudent (by decide) (by decide) (by decide)
    (by
      intro t ht
      have h0 : parseIsoDate (fun _ => some 0) demoStudent.LastApprovedAt = some 0 := by decide
      rw [h0] at ht
      obtain rfl := Option.some.inj ht
      decide)
  exact ⟨h.2.1, h.2.2.1⟩

/-- Claim C5: on every accepted (200) POST /student/update, the resulting
LastApprovedAt is the current IST time exactly when the update grants a
retake or newly sets Attempted to Yes on a record not already marked
attempted; otherwise it is the payload's LastApprovedAt value if one was
sent, else the stored value. In particular an update setting Attempted on
a record whose Attempted is already "Yes" (and not granting a retake, nor
sending an explicit LastApprovedAt) leaves LastApprovedAt unchanged. -/
theorem c5_lastApprovedAt_refresh
    (dateParse : String → Option Int) (nowMs : Int) (nowIST mob : String) (u : Updates)
    (s s2 : List (List String)) (st st2 : Student)
    (hfound : findStudentByMobile (normalizeMobileNumber mob) s = some st)
    (hok : updateStudent dateParse nowMs nowIST mob u s = (.ok st2, s2)) :
    st2.LastApprovedAt =
      (if isRetakeRequest u || isAttemptApproval u st then nowIST
       else u.LastApprovedAt.getD st.LastApprovedAt) ∧
    (u.LastApprovedAt = none → isRetakeRequest u = false → st.Attempted = "Yes" →
      st2.LastApprovedAt = st.LastApprovedAt) := by
  obtain ⟨st0, hfind0, hst2, _, _⟩ := updateStudent_ok_inv hok
  rw [hfound] at hfind0
  obtain rfl := Option.some.inj hfind0
  subst hst2
  refine ⟨rfl, fun hnone hnr hyes => ?_⟩
  have hatt : isAttemptApproval u st = false := by
    unfold isAttemptApproval
    cases hu : u.Attempted with
    | none => rfl
    | some v =>
      rw [hyes]
      have h1 : normalizeYesNo (JSVal.vStr "Yes") = "Yes" := by decide
      simp [h1]
  show (if isRetakeRequest u || isAttemptApproval u st then nowIST
    else u.LastApprovedAt.getD st.LastApprovedAt) = st.LastApprovedAt
  rw [hnr, hatt, hnone]
  simp

/-- Witness for C5: re-setting Attempted on the demo record (already
attempted) leaves its LastApprovedAt at "T0". -/
theorem c5_lastApprovedAt_refresh_witness :
    (mergedStudent "T3" (normalizeMobileNumber "9876543210") c5updates demoStudent).LastApprovedAt
      = "T0" := by
  have h := c5_lastApprovedAt_refresh (fun _ => none) 0 "T3" "9876543210" c5updates
    demoSheet
    (setRow demoSheet 0
      (buildRowFromStudent (mergedStudent "T3" (normalizeMobileNumber "9876543210") c5updates demoStudent)))
    demoStudent
    (mergedStudent "T3" (normalizeMobileNumber "9876543210") c5updates demoStudent)
    (by decide) (by decide)
  exact (h.2 (by decide) (by decide) (by decide)).trans (by decide)

/-- Claim C7: normalizeMobileNumber keeps exactly the digit characters of
its input in order (its character list is the digit-filter of the input's
characters) and is idempotent; and creating a student with MobileNo
"98765 43210" on an empty sheet appends a row whose stored MobileNo cell
is "9876543210". -/
theorem c7_normalizeMobileNumber_spec :
    (∀ s : String, (normalizeMobileNumber s).data = s.data.filter Char.isDigit) ∧
    (∀ s : String, normalizeMobileNumber (normalizeMobileNumber s) = normalizeMobileNumber s) ∧
    normalizeMobileNumber "98765 43210" = "9876543210" ∧
    (createStudent "T9" exampleReq []).2 =
      [["A", "9876543210", "X", "Y", "Yes", "500", "Yes", "No", "T9", "", "", "T9"]] :=
  ⟨fun _ => rfl, normalizeMobileNumber_idem, by decide, by decide⟩

/-- Counterexample to claim C9: looking up "abc" (whose normalization is
empty) through GET /student returns the 404 not-found response, not a 400
invalid-input error — the handler only rejects a missing or
whitespace-only query parameter and never checks the normalized form. -/
theorem c9_counterexample :
    getStudent "abc" demoSheet = GetResp.notFound ∧
    GetResp.notFound ≠ GetResp.badRequest :=
  ⟨by decide, by decide⟩

/-- Amended claim C9: GET /student returns the 400 invalid-input response
exactly for inputs that trim to the empty string; an input that is
nonempty after trimming but whose normalization is empty (letters or
punctuation only) flows into the lookup, matches no row on any sheet, and
yields the 404 not-found response. -/
theorem c9_amended_lookup_empty_normalization
    (mob : String) (s : List (List String)) :
    (jsTrim mob = "" → getStudent mob s = .badRequest) ∧
    (jsTrim mob ≠ "" → normalizeMobileNumber mob = "" → getStudent mob s = .notFound) := by
  constructor
  · intro h
    unfold getStudent
    rw [if_pos h]
  · intro h1 h2
    unfold getStudent
    rw [if_neg h1,
      findStudentByMobile_of_norm_empty _ _ (normalizeMobileNumber_jsTrim_of_empty mob h2)]

/-- Witness for the amended C9: "abc" trims to itself, normalizes to
empty, and gets 404 even on a sheet that does contain records. -/
theorem c9_amended_witness :
    getStudent "abc" demoSheetNo = GetResp.notFound :=
  (c9_amended_lookup_empty_normalization "abc" demoSheetNo).2 (by decide) (by decide)

/-- Claim C10: normalizeYesNo always returns exactly "Yes" or "No"; it
returns "Yes" precisely on the boolean true and on strings whose trimmed
lowercase form is "yes"; the strings "true", "TRUE", "1", the number 1,
null and undefined all yield "No". Consequently the endpoints only write
Yes/No in these columns: a created record has normalized Paid and literal
"Yes"/"No" flags; a duplicate upsert writes a normalized Paid; and an
accepted update keeps Paid/Attempted/RetakeAllowed in Yes/No whenever the
stored record's values were. -/
theorem c10_normalizeYesNo_spec :
    (∀ v, normalizeYesNo v = "Yes" ∨ normalizeYesNo v = "No") ∧
    (∀ v, normalizeYesNo v = "Yes" ↔
      (v = .vBool true ∨ ∃ s, v = .vStr s ∧ jsToLower (jsTrim s) = "yes")) ∧
    (normalizeYesNo (.vStr "true") = "No" ∧ normalizeYesNo (.vStr "TRUE") = "No" ∧
     normalizeYesNo (.vStr "1") = "No" ∧ normalizeYesNo (.vNum 1) = "No" ∧
     normalizeYesNo .vNull = "No" ∧ normalizeYesNo .vUndef = "No") ∧
    (∀ nowIST req s ns s2, createStudent nowIST req s = (.createdR ns, s2) →
      (ns.Paid = "Yes" ∨ ns.Paid = "No") ∧ ns.Attempted = "Yes" ∧ ns.RetakeAllowed = "No") ∧
    (∀ nowIST req s us s2, createStudent nowIST req s = (.updatedR us, s2) →
      (us.Paid = "Yes" ∨ us.Paid = "No")) ∧
    (∀ dateParse nowMs nowIST mob u s st st2 s2,
      findStudentByMobile (normalizeMobileNumber mob) s = some st →
      updateStudent dateParse nowMs nowIST mob u s = (.ok st2, s2) →
      ((st.Paid = "Yes" ∨ st.Paid = "No") → (st2.Paid = "Yes" ∨ st2.Paid = "No")) ∧
      ((st.Attempted = "Yes" ∨ st.Attempted = "No") →
        (st2.Attempted = "Yes" ∨ st2.Attempted = "No")) ∧
      ((st.RetakeAllowed = "Yes" ∨ st.RetakeAllowed = "No") →
        (st2.RetakeAllowed = "Yes" ∨ st2.RetakeAllowed = "No"))) := by
  refine ⟨normalizeYesNo_total, ?_, by decide, ?_, ?_, ?_⟩
  · intro v
    cases v with
    | vStr s =>
      by_cases h : jsToLower (jsTrim s) = "yes" <;> simp [normalizeYesNo, h]
    | vBool b => cases b <;> simp [normalizeYesNo]
    | vNum n => simp [normalizeYesNo]
    | vNull => simp [normalizeYesNo]
    | vUndef => simp [normalizeYesNo]
  · intro nowIST req s ns s2 h
    obtain rfl := createStudent_createdR_inv h
    exact ⟨normalizeYesNo_total req.Paid, rfl, rfl⟩
  · intro nowIST req s us s2 h
    obtain ⟨ex, _, rfl⟩ := createStudent_updatedR_inv h
    exact normalizeYesNo_total req.Paid
  · intro dateParse nowMs nowIST mob u s st st2 s2 hfound hok
    obtain ⟨st0, hfind0, hst2, _, _⟩ := updateStudent_ok_inv hok
    rw [hfound] at hfind0
    obtain rfl := Option.some.inj hfind0
    subst hst2
    refine ⟨fun hP => ?_, fun hA => ?_, fun hR => ?_⟩
    · show ((u.Paid.map normalizeYesNo).getD st.Paid = "Yes" ∨
        (u.Paid.map normalizeYesNo).getD st.Paid = "No")
      cases hu : u.Paid with
      | none => simpa [hu] using hP
      | some v => simpa [hu] using normalizeYesNo_total v
    · show ((u.Attempted.map normalizeYesNo).getD st.Attempted = "Yes" ∨
        (u.Attempted.map normalizeYesNo).getD st.Attempted = "No")
      cases hu : u.Attempted with
      | none => simpa [hu] using hA
      | some v => simpa [hu] using normalizeYesNo_total v
    · show ((u.RetakeAllowed.map normalizeYesNo).getD st.RetakeAllowed = "Yes" ∨
        (u.RetakeAllowed.map normalizeYesNo).getD st.RetakeAllowed = "No")
      cases hu : u.RetakeAllowed with
      | none => simpa [hu] using hR
      | some v => simpa [hu] using normalizeYesNo_total v

/-- Witness for C10: " YES " normalizes to "Yes" via the characterization,
and an accepted update on the demo record keeps Paid in Yes/No. -/
theorem c10_normalizeYesNo_spec_witness :
    normalizeYesNo (.vStr " YES ") = "Yes" ∧
    ((mergedStudent "T4" (normalizeMobileNumber "9876543210") c2updates demoStudent).Paid = "Yes" ∨
     (mergedStudent "T4" (normalizeMobileNumber "9876543210") c2updates demoStudent).Paid = "No") := by
  constructor
  · exact (c10_normalizeYesNo_spec.2.1 (.vStr " YES ")).mpr
      (Or.inr ⟨" YES ", rfl, by decide⟩)
  · exact (c10_normalizeYesNo_spec.2.2.2.2.2 (fun _ => none) 0 "T4" "9876543210" c2updates
      demoSheet demoStudent
      (mergedStudent "T4" (normalizeMobileNumber "9876543210") c2updates demoStudent)
      (setRow demoSheet 0
        (buildRowFromStudent (mergedStudent "T4" (normalizeMobileNumber "9876543210") c2updates demoStudent)))
      (by decide) (by decide)).1 (Or.inl (by decide))

/-- Claim C1: a POST /student whose normalized MobileNo already has a row
never appends — under sequential access the existing row is rewritten in
place at its row number, the sheet keeps its length, the number of rows
matching that normalized MobileNo stays 1, a fresh lookup returns the
rewritten row at the same row number, and its stored CreatedAt equals the
pre-call value (system-written timestamps are trim-invariant, which the
`hCreated` hypothesis records). The response is the 200 updated:true
constructor `updatedR`; `createdR` (201, created:true) arises only on the
no-existing-row path, which the `hfound` hypothesis excludes here. -/
theorem c1_upsert_existing_no_duplicate
    (nowIST : String) (req : CreateReq) (s : List (List String)) (ex : Student)
    (hv : validCreate req)
    (hfound : findStudentByMobile (normalizeMobileNumber req.MobileNo) s = some ex)
    (hcount : s.countP (rowMatches (normalizeMobileNumber req.MobileNo)) = 1)
    (hCreated : jsTrim ex.CreatedAt = ex.CreatedAt) :
    createStudent nowIST req s =
      (.updatedR (upsertExisting req (normalizeMobileNumber req.MobileNo) ex),
       setRow s (ex.rowNumber - 2)
         (buildRowFromStudent (upsertExisting req (normalizeMobileNumber req.MobileNo) ex))) ∧
    (setRow s (ex.rowNumber - 2)
      (buildRowFromStudent (upsertExisting req (normalizeMobileNumber req.MobileNo) ex))).length
      = s.length ∧
    (setRow s (ex.rowNumber - 2)
      (buildRowFromStudent (upsertExisting req (normalizeMobileNumber req.MobileNo) ex))).countP
      (rowMatches (normalizeMobileNumber req.MobileNo)) = 1 ∧
    findStudentByMobile (normalizeMobileNumber req.MobileNo)
      (setRow s (ex.rowNumber - 2)
        (buildRowFromStudent (upsertExisting req (normalizeMobileNumber req.MobileNo) ex))) =
      some (mapRowToStudent
        (buildRowFromStudent (upsertExisting req (normalizeMobileNumber req.MobileNo) ex))
        ex.rowNumber) ∧
    (mapRowToStudent
      (buildRowFromStudent (upsertExisting req (normalizeMobileNumber req.MobileNo) ex))
      ex.rowNumber).CreatedAt = ex.CreatedAt := by
  obtain ⟨h1, h2, h3, h4, h5, h6, h7⟩ := hv
  obtain ⟨idx, hj, hstmap, hlen, hrow⟩ := findStudentByMobile_some_inv hfound
  rw [normalizeMobileNumber_idem req.MobileNo] at hj
  have hidx : ex.rowNumber - 2 = idx := by omega
  have hmatch : rowMatches (normalizeMobileNumber req.MobileNo)
      (buildRowFromStudent (upsertExisting req (normalizeMobileNumber req.MobileNo) ex)) = true := by
    apply rowMatches_buildRow _ _ _ h7
    show normalizeMobileNumber (jsTrim (normalizeMobileNumber req.MobileNo)) = _
    rw [jsTrim_normalizeMobileNumber, normalizeMobileNumber_idem]
  refine ⟨?_, ?_, ?_, ?_, ?_⟩
  · unfold createStudent createStudentR upsertResult
    rw [if_neg (by simp [h1, h2, h3, h4, h5]), if_neg h6, if_neg h7, hfound]
    rfl
  · simp [setRow]
  · unfold setRow
    rw [hidx, countP_set_eq _ [] s idx _ hlen ((jsFindIndex_spec _ [] _ _ hj).2.1) hmatch]
    exact hcount
  · unfold findStudentByMobile setRow
    rw [normalizeMobileNumber_idem, hidx, jsFindIndex_set _ _ _ _ hj hmatch]
    show some (mapRowToStudent
      ((s.set idx (buildRowFromStudent
        (upsertExisting req (normalizeMobileNumber req.MobileNo) ex))).getD idx [])
      (idx + 2)) = _
    rw [getD_set_self _ _ _ _ hlen, ← hrow]
  · show jsTrim (upsertExisting req (normalizeMobileNumber req.MobileNo) ex).CreatedAt
      = ex.CreatedAt
    exact hCreated

/-- Witness for C1: upserting the demo payload over the demo sheet keeps a
single row for 9876543210 and preserves CreatedAt "C0". -/
theorem c1_upsert_existing_no_duplicate_witness :
    (setRow demoSheet (demoStudent.rowNumber - 2)
      (buildRowFromStudent
        (upsertExisting demoReq (normalizeMobileNumber demoReq.MobileNo) demoStudent))).countP
      (rowMatches (normalizeMobileNumber demoReq.MobileNo)) = 1 ∧
    (mapRowToStudent
      (buildRowFromStudent
        (upsertExisting demoReq (normalizeMobileNumber demoReq.MobileNo) demoStudent))
      demoStudent.rowNumber).CreatedAt = "C0" := by
  have h := c1_upsert_existing_no_duplicate "T5" demoReq demoSheet demoStudent
    (by decide) (by decide) (by decide) (by decide)
  exact ⟨h.2.2.1, h.2.2.2.2.trans (by decide)⟩

/-- Claim C6: a valid POST /student with a fresh (unmatched) normalized
MobileNo appends a record with Attempted "Yes", RetakeAllowed "No" and
CreatedAt and LastApprovedAt both the current IST timestamp, answers with
the 201 created:true constructor `createdR`, and a subsequent lookup by
that number returns the appended row (at sheet row length + 2) with
CreatedAt equal to the timestamp recorded at creation. -/
theorem c6_fresh_create_appends
    (nowIST : String) (req : CreateReq) (s : List (List String))
    (hv : validCreate req)
    (hnone : findStudentByMobile (normalizeMobileNumber req.MobileNo) s = none)
    (hIST : jsTrim nowIST = nowIST) :
    createStudent nowIST req s =
      (.createdR (newStudentOf req (normalizeMobileNumber req.MobileNo) nowIST),
       s ++ [buildRowFromStudent (newStudentOf req (normalizeMobileNumber req.MobileNo) nowIST)]) ∧
    (newStudentOf req (normalizeMobileNumber req.MobileNo) nowIST).Attempted = "Yes" ∧
    (newStudentOf req (normalizeMobileNumber req.MobileNo) nowIST).RetakeAllowed = "No" ∧
    (newStudentOf req (normalizeMobileNumber req.MobileNo) nowIST).CreatedAt = nowIST ∧
    (newStudentOf req (normalizeMobileNumber req.MobileNo) nowIST).LastApprovedAt = nowIST ∧
    findStudentByMobile (normalizeMobileNumber req.MobileNo)
      (s ++ [buildRowFromStudent (newStudentOf req (normalizeMobileNumber req.MobileNo) nowIST)]) =
      some (mapRowToStudent
        (buildRowFromStudent (newStudentOf req (normalizeMobileNumber req.MobileNo) nowIST))
        (s.length + 2)) ∧
    (mapRowToStudent
      (buildRowFromStudent (newStudentOf req (normalizeMobileNumber req.MobileNo) nowIST))
      (s.length + 2)).CreatedAt = nowIST ∧
    (mapRowToStudent
      (buildRowFromStudent (newStudentOf req (normalizeMobileNumber req.MobileNo) nowIST))
      (s.length + 2)).Attempted = "Yes" ∧
    (mapRowToStudent
      (buildRowFromStudent (newStudentOf req (normalizeMobileNumber req.MobileNo) nowIST))
      (s.length + 2)).RetakeAllowed = "No" := by
  obtain ⟨h1, h2, h3, h4, h5, h6, h7⟩ := hv
  have hmatch : rowMatches (normalizeMobileNumber req.MobileNo)
      (buildRowFromStudent (newStudentOf req (normalizeMobileNumber req.MobileNo) nowIST))
      = true := by
    apply rowMatches_buildRow _ _ _ h7
    show normalizeMobileNumber (jsTrim (normalizeMobileNumber req.MobileNo)) = _
    rw [jsTrim_normalizeMobileNumber, normalizeMobileNumber_idem]
  have hj := findStudentByMobile_none_inv hnone
  rw [normalizeMobileNumber_idem req.MobileNo] at hj
  refine ⟨?_, rfl, rfl, rfl, rfl, ?_, ?_, ?_, ?_⟩
  · unfold createStudent createStudentR upsertResult
    rw [if_neg (by simp [h1, h2, h3, h4, h5]), if_neg h6, if_neg h7, hnone]
    rfl
  · unfold findStudentByMobile
    rw [normalizeMobileNumber_idem, jsFindIndex_append _ _ _ hj]
    have hone : jsFindIndex (rowMatches (normalizeMobileNumber req.MobileNo))
        [buildRowFromStudent (newStudentOf req (normalizeMobileNumber req.MobileNo) nowIST)]
        = some 0 := by
      simp [jsFindIndex, hmatch]
    rw [hone]
    show some (mapRowToStudent
      ((s ++ [buildRowFromStudent (newStudentOf req (normalizeMobileNumber req.MobileNo) nowIST)]).getD
        (0 + s.length) [])
      ((0 + s.length) + 2)) = _
    rw [Nat.zero_add, getD_append_length]
  · show jsTrim (newStudentOf req (normalizeMobileNumber req.MobileNo) nowIST).CreatedAt = nowIST
    exact hIST
  · show jsTrim "Yes" = "Yes"
    decide
  · show jsTrim "No" = "No"
    decide

/-- Witness for C6: creating the demo payload on an empty sheet appends
its row and records CreatedAt "T6". -/
theorem c6_fresh_create_appends_witness :
    createStudent "T6" demoReq [] =
      (.createdR (newStudentOf demoReq (normalizeMobileNumber demoReq.MobileNo) "T6"),
       [] ++ [buildRowFromStudent (newStudentOf demoReq (normalizeMobileNumber demoReq.MobileNo) "T6")]) ∧
    (newStudentOf demoReq (normalizeMobileNumber demoReq.MobileNo) "T6").CreatedAt = "T6" := by
  have h := c6_fresh_create_appends "T6" demoReq [] (by decide) (by decide) (by decide)
  exact ⟨h.1, h.2.2.2.1⟩

/-- Counterexample to claim C8: with a valid payload, when the first three
lookups see no record but the absolute final pre-append check (server.js
line 870) finds one, the handler does not update in place — it throws
(line 874), surfaced as the 500 `serverError` response, with no write at
all. The claim's "every branch where a record is found results in an
in-place update response, never a failure response" is therefore false
for that fourth check. -/
theorem c8_counterexample :
    createStudentR "T7" demoReq [] [] [] demoSheet =
      (CreateResp.serverError, WriteAction.noWrite) := by
  decide

/-- Amended claim C8: of the three re-checks that follow the initial
lookup, the first two (lines 743 and 818) abort the append and update the
existing row in place with the 200 updated:true response; the last
safeguard check (line 870) aborts the append by throwing, surfaced as a
500 error with no write. In every branch where a re-check finds a record
no row is ever appended. -/
theorem c8_amended_midflow_rechecks
    (nowIST : String) (req : CreateReq) (s1 s2 s3 s4 : List (List String))
    (hv : validCreate req) :
    (∀ ex, findStudentByMobile (normalizeMobileNumber req.MobileNo) s1 = none →
      findStudentByMobile (normalizeMobileNumber req.MobileNo) s2 = some ex →
      createStudentR nowIST req s1 s2 s3 s4 =
        upsertResult req (normalizeMobileNumber req.MobileNo) ex) ∧
    (∀ ex, findStudentByMobile (normalizeMobileNumber req.MobileNo) s1 = none →
      findStudentByMobile (normalizeMobileNumber req.MobileNo) s2 = none →
      findStudentByMobile (normalizeMobileNumber req.MobileNo) s3 = some ex →
      createStudentR nowIST req s1 s2 s3 s4 =
        upsertResult req (normalizeMobileNumber req.MobileNo) ex) ∧
    (∀ ex, findStudentByMobile (normalizeMobileNumber req.MobileNo) s1 = none →
      findStudentByMobile (normalizeMobileNumber req.MobileNo) s2 = none →
      findStudentByMobile (normalizeMobileNumber req.MobileNo) s3 = none →
      findStudentByMobile (normalizeMobileNumber req.MobileNo) s4 = some ex →
      createStudentR nowIST req s1 s2 s3 s4 = (.serverError, .noWrite)) := by
  obtain ⟨h1, h2, h3, h4, h5, h6, h7⟩ := hv
  refine ⟨?_, ?_, ?_⟩
  · intro ex hn1 hf2
    unfold createStudentR
    rw [if_neg (by simp [h1, h2, h3, h4, h5]), if_neg h6, if_neg h7, hn1, hf2]
  · intro ex hn1 hn2 hf3
    unfold createStudentR
    rw [if_neg (by simp [h1, h2, h3, h4, h5]), if_neg h6, if_neg h7, hn1, hn2, hf3]
  · intro ex hn1 hn2 hn3 hf4
    unfold createStudentR
    rw [if_neg (by simp [h1, h2, h3, h4, h5]), if_neg h6, if_neg h7, hn1, hn2, hn3, hf4]

/-- Witness for the amended C8: the pre-append re-check (third lookup)
finding the demo record turns the request into an in-place update. -/
theorem c8_amended_midflow_rechecks_witness :
    createStudentR "T8" demoReq [] [] demoSheet demoSheet =
      upsertResult demoReq (normalizeMobileNumber demoReq.MobileNo) demoStudent := by
  have h := c8_amended_midflow_rechecks "T8" demoReq [] [] demoSheet demoSheet (by decide)
  exact h.2.1 demoStudent (by decide) (by decide) (by decide)
